import Mathlib

/-!
Shallow embedding of the MRG32k3a device engine from
`src/library/include/rocrand_mrg32k3a.h` (class `rocrand_device::mrg32k3a_engine`).

Machine integers are modelled as `ℕ`; every C `unsigned long long` operation
that can exceed 2^64 carries an explicit `% U64`.  The C++ member functions
mutate `m_state` in place; here they are state-passing functions on
`mrg32k3a_state`.  The two Box-Muller cache payload fields (`float` /
`double`) are carried as opaque bit patterns of type `ℕ`: the engine code in
this header never computes with them, it only stores and clears the two
"present" flags.
-/

namespace mrg32k3a

/-- 2^64, the wrap-around modulus of C `unsigned long long` arithmetic. -/
def U64 : ℕ := 18446744073709551616

/-- ROCRAND_MRG32K3A_POW32 -/
def POW32 : ℕ := 4294967296

/-- ROCRAND_MRG32K3A_M1 -/
def M1 : ℕ := 4294967087

/-- ROCRAND_MRG32K3A_M1C -/
def M1C : ℕ := 209

/-- ROCRAND_MRG32K3A_M2 -/
def M2 : ℕ := 4294944443

/-- ROCRAND_MRG32K3A_M2C -/
def M2C : ℕ := 22853

/-- ROCRAND_MRG32K3A_A12 -/
def A12 : ℕ := 1403580

/-- ROCRAND_MRG32K3A_A13 = 4294967087 - 810728 -/
def A13 : ℕ := 4294967087 - 810728

/-- ROCRAND_MRG32K3A_A13N -/
def A13N : ℕ := 810728

/-- ROCRAND_MRG32K3A_A21 -/
def A21 : ℕ := 527612

/-- ROCRAND_MRG32K3A_A23 = 4294944443 - 1370589 -/
def A23 : ℕ := 4294944443 - 1370589

/-- ROCRAND_MRG32K3A_A23N -/
def A23N : ℕ := 1370589

/-- ROCRAND_MRG32K3A_DEFAULT_SEED -/
def DEFAULT_SEED : ℕ := 0x12345

/-- A length-3 array of `unsigned long long` (the `g1` / `g2` triplets). -/
structure Vec3 where
  s0 : ℕ
  s1 : ℕ
  s2 : ℕ
deriving DecidableEq

/-- A flat 9-element `unsigned long long` array holding a 3x3 matrix, with
`aK` the element at flat index `K`, exactly as the C initializer lists read. -/
structure Mat3 where
  a0 : ℕ
  a1 : ℕ
  a2 : ℕ
  a3 : ℕ
  a4 : ℕ
  a5 : ℕ
  a6 : ℕ
  a7 : ℕ
  a8 : ℕ
deriving DecidableEq

/-- `struct mrg32k3a_state`: the two recurrence triplets plus the Box-Muller
cache (two "is a value present" flags and two opaque cached payloads). -/
structure mrg32k3a_state where
  g1 : Vec3
  g2 : Vec3
  boxmuller_float_state : ℕ
  boxmuller_double_state : ℕ
  boxmuller_float : ℕ
  boxmuller_double : ℕ
deriving DecidableEq

/-- `mod_m1`: one fold `(i & 0xFFFFFFFF) + (i >> 32) * M1C` followed by a
single conditional subtraction of `M1`.  For any argument below 2^64 the
fold itself cannot exceed 2^64, so no wrap is inserted. -/
def mod_m1 (i : ℕ) : ℕ :=
  if M1 ≤ i % POW32 + i / POW32 * M1C then
    i % POW32 + i / POW32 * M1C - M1
  else
    i % POW32 + i / POW32 * M1C

/-- `mod_m2`: the same fold with `M2C`, applied twice, then one conditional
subtraction of `M2`. -/
def mod_m2 (i : ℕ) : ℕ :=
  if M2 ≤ (i % POW32 + i / POW32 * M2C) % POW32
          + (i % POW32 + i / POW32 * M2C) / POW32 * M2C then
    (i % POW32 + i / POW32 * M2C) % POW32
      + (i % POW32 + i / POW32 * M2C) / POW32 * M2C - M2
  else
    (i % POW32 + i / POW32 * M2C) % POW32
      + (i % POW32 + i / POW32 * M2C) / POW32 * M2C

/-- `mod_mul_m1(i, j)`: split the 32-bit `i` as `hi * 131072 + lo`, reduce the
two partial products with `mod_m1`, recombine, reduce once more.  The C
locals `hi`, `lo`, `temp1`, `temp2` are `long long` but provably never
negative, so they are carried as `ℕ`; the trailing `if (lo < 0) lo += M1;`
correction is unreachable and therefore omitted.  The products `hi * j` and
`lo * j` are formed in `unsigned long long` and wrap, hence the `% U64`. -/
def mod_mul_m1 (i j : ℕ) : ℕ :=
  mod_m1 ((mod_m1 (i / 131072 * j % U64) * 131072 % U64
           + mod_m1 ((i - i / 131072 * 131072) * j % U64)) % U64)

/-- `mod_mul_m2(i, j)`: same splitting as `mod_mul_m1`, reducing with
`mod_m2`; the unreachable `if (lo < 0)` correction is likewise omitted. -/
def mod_mul_m2 (i j : ℕ) : ℕ :=
  mod_m2 ((mod_m2 (i / 131072 * j % U64) * 131072 % U64
           + mod_m2 ((i - i / 131072 * 131072) * j % U64)) % U64)

/-- One accumulation step of `mod_mat_vec`:
`x[i] = (A[i + 3 * j] * s[j] + x[i]) % m` in `unsigned long long`. -/
def mat_acc (a s x m : ℕ) : ℕ := (a * s % U64 + x) % U64 % m

/-- `mod_mat_vec(A, s, m)`: `x[i] = sum over j of A[i + 3 * j] * s[j]`,
accumulated modulo `m` (note the flat index `i + 3 * j`). -/
def mod_mat_vec (A : Mat3) (s : Vec3) (m : ℕ) : Vec3 where
  s0 := mat_acc A.a6 s.s2 (mat_acc A.a3 s.s1 (mat_acc A.a0 s.s0 0 m) m) m
  s1 := mat_acc A.a7 s.s2 (mat_acc A.a4 s.s1 (mat_acc A.a1 s.s0 0 m) m) m
  s2 := mat_acc A.a8 s.s2 (mat_acc A.a5 s.s1 (mat_acc A.a2 s.s0 0 m) m) m

/-- One product term of `mod_mat_sq`: `(A[i + 3 * k] * A[k + 3 * j]) % m`
in `unsigned long long`. -/
def sq_term (a b m : ℕ) : ℕ := a * b % U64 % m

/-- One entry of `mod_mat_sq`: `a` accumulates the three product terms with
`unsigned long long` wrap, and the entry is `a % m`. -/
def sq3 (x y p q u v m : ℕ) : ℕ :=
  (((0 + sq_term x y m) % U64 + sq_term p q m) % U64 + sq_term u v m) % U64 % m

/-- `mod_mat_sq(A, m)`: `x[i + 3 * j] = sum over k of A[i + 3 * k] * A[k + 3 * j]`
with each term reduced modulo `m`, the entry reduced modulo `m`. -/
def mod_mat_sq (A : Mat3) (m : ℕ) : Mat3 where
  a0 := sq3 A.a0 A.a0 A.a3 A.a1 A.a6 A.a2 m
  a1 := sq3 A.a1 A.a0 A.a4 A.a1 A.a7 A.a2 m
  a2 := sq3 A.a2 A.a0 A.a5 A.a1 A.a8 A.a2 m
  a3 := sq3 A.a0 A.a3 A.a3 A.a4 A.a6 A.a5 m
  a4 := sq3 A.a1 A.a3 A.a4 A.a4 A.a7 A.a5 m
  a5 := sq3 A.a2 A.a3 A.a5 A.a4 A.a8 A.a5 m
  a6 := sq3 A.a0 A.a6 A.a3 A.a7 A.a6 A.a8 m
  a7 := sq3 A.a1 A.a6 A.a4 A.a7 A.a7 A.a8 m
  a8 := sq3 A.a2 A.a6 A.a5 A.a7 A.a8 A.a8 m

/-- The local array `A1` of `discard_state` (the base step matrix, read off
the initializer list in flat order). -/
def A1 : Mat3 := ⟨0, 1, 0, 0, 0, 1, A13, A12, 0⟩

/-- The local array `A2` of `discard_state`. -/
def A2 : Mat3 := ⟨0, 1, 0, 0, 0, 1, A23, 0, A21⟩

/-- The local array `A1p67` of `discard_subsequence_impl`. -/
def A1p67 : Mat3 :=
  ⟨82758667, 1871391091, 4127413238,
   3672831523, 69195019, 1871391091,
   3672091415, 3528743235, 69195019⟩

/-- The local array `A2p67` of `discard_subsequence_impl`. -/
def A2p67 : Mat3 :=
  ⟨1511326704, 3759209742, 1610795712,
   4292754251, 1511326704, 3889917532,
   3859662829, 4292754251, 3708466080⟩

/-- The local array `A1p127` of `discard_sequence_impl`. -/
def A1p127 : Mat3 :=
  ⟨2427906178, 3580155704, 949770784,
   226153695, 1230515664, 3580155704,
   1988835001, 986791581, 1230515664⟩

/-- The local array `A2p127` of `discard_sequence_impl`. -/
def A2p127 : Mat3 :=
  ⟨1464411153, 277697599, 1610723613,
   32183930, 1464411153, 1022607788,
   2824425944, 32183930, 2093834863⟩

/-- The shared square-and-multiply loop of `discard_state`,
`discard_subsequence_impl` and `discard_sequence_impl`: while the exponent is
nonzero, apply the current matrices to the state vectors when the exponent is
odd, halve the exponent, square both matrices. -/
def jump_state (B1 B2 : Mat3) (g1 g2 : Vec3) (n : ℕ) : Vec3 × Vec3 :=
  if h : n = 0 then (g1, g2)
  else
    jump_state (mod_mat_sq B1 M1) (mod_mat_sq B2 M2)
      (if n % 2 = 1 then mod_mat_vec B1 g1 M1 else g1)
      (if n % 2 = 1 then mod_mat_vec B2 g2 M2 else g2)
      (n / 2)
termination_by n
decreasing_by omega

/-- `discard_state(offset)`: run the jump loop with the base step matrices. -/
def discard_state (offset : ℕ) (s : mrg32k3a_state) : mrg32k3a_state :=
  { s with
    g1 := (jump_state A1 A2 s.g1 s.g2 offset).1
    g2 := (jump_state A1 A2 s.g1 s.g2 offset).2 }

/-- `discard_impl(offset)` forwards to `discard_state(offset)`. -/
def discard_impl (offset : ℕ) (s : mrg32k3a_state) : mrg32k3a_state :=
  discard_state offset s

/-- Public `discard(offset)`. -/
def discard (offset : ℕ) (s : mrg32k3a_state) : mrg32k3a_state :=
  discard_impl offset s

/-- `discard_subsequence_impl(subsequence)`: jump loop with the stored
`A1p67` / `A2p67` arrays. -/
def discard_subsequence_impl (subsequence : ℕ) (s : mrg32k3a_state) :
    mrg32k3a_state :=
  { s with
    g1 := (jump_state A1p67 A2p67 s.g1 s.g2 subsequence).1
    g2 := (jump_state A1p67 A2p67 s.g1 s.g2 subsequence).2 }

/-- Public `discard_subsequence(subsequence)`. -/
def discard_subsequence (subsequence : ℕ) (s : mrg32k3a_state) :
    mrg32k3a_state :=
  discard_subsequence_impl subsequence s

/-- `discard_sequence_impl(sequence)`: jump loop with the stored
`A1p127` / `A2p127` arrays. -/
def discard_sequence_impl (sequence : ℕ) (s : mrg32k3a_state) :
    mrg32k3a_state :=
  { s with
    g1 := (jump_state A1p127 A2p127 s.g1 s.g2 sequence).1
    g2 := (jump_state A1p127 A2p127 s.g1 s.g2 sequence).2 }

/-- Public `discard_sequence(sequence)`. -/
def discard_sequence (sequence : ℕ) (s : mrg32k3a_state) : mrg32k3a_state :=
  discard_sequence_impl sequence s

/-- `restart(subsequence, offset)`: clear both Box-Muller present flags, then
`discard_subsequence_impl(subsequence)`, then `discard_impl(offset)`. -/
def restart (subsequence offset : ℕ) (s : mrg32k3a_state) : mrg32k3a_state :=
  discard_impl offset (discard_subsequence_impl subsequence
    { s with boxmuller_float_state := 0, boxmuller_double_state := 0 })

/-- `seed(seed_value, subsequence, offset)`: substitute the default seed for
zero, derive `x` and `y` by masking/XOR, fill the six state words through
`mod_mul_m1` / `mod_mul_m2`, then `restart(subsequence, offset)`. -/
def seed (seed_value subsequence offset : ℕ) (s : mrg32k3a_state) :
    mrg32k3a_state :=
  let v := if seed_value = 0 then DEFAULT_SEED else seed_value
  let x := (v % POW32) ^^^ 0x55555555
  let y := ((v / POW32) ^^^ 0xAAAAAAAA) % POW32
  restart subsequence offset
    { s with
      g1 := ⟨mod_mul_m1 x v, mod_mul_m1 y v, mod_mul_m1 x v⟩
      g2 := ⟨mod_mul_m2 y v, mod_mul_m2 x v, mod_mul_m2 y v⟩ }

/-- Two's-complement subtraction `a - b` on `unsigned long long`. -/
def sub64 (a b : ℕ) : ℕ := (a % U64 + (U64 - b % U64)) % U64

/-- Wrapping addition on `unsigned long long`. -/
def add64 (a b : ℕ) : ℕ := (a + b) % U64

/-- Wrapping multiplication on `unsigned long long`. -/
def mul64 (a b : ℕ) : ℕ := a * b % U64

/-- `next()`: one step of the MRG32k3a recurrence.  Returns the produced
value together with the updated state. -/
def next (s : mrg32k3a_state) : ℕ × mrg32k3a_state :=
  let p1 := mod_m1 (add64 (mul64 A12 s.g1.s1) (mul64 A13N (sub64 M1 s.g1.s0)))
  let p2 := mod_m2 (add64 (mul64 A21 s.g2.s2) (mul64 A23N (sub64 M2 s.g2.s0)))
  let p := if p1 ≤ p2 then add64 (sub64 p1 p2) M1 else sub64 p1 p2
  (p, { s with g1 := ⟨s.g1.s1, s.g1.s2, p1⟩, g2 := ⟨s.g2.s1, s.g2.s2, p2⟩ })

/-- The spec's state-bounds invariant: each `g1` word below `M1`, each `g2`
word below `M2` (the lower bound `0 ≤ _` is inherent to `ℕ`). -/
def bounds_inv (s : mrg32k3a_state) : Prop :=
  s.g1.s0 < M1 ∧ s.g1.s1 < M1 ∧ s.g1.s2 < M1 ∧
  s.g2.s0 < M2 ∧ s.g2.s1 < M2 ∧ s.g2.s2 < M2

instance (s : mrg32k3a_state) : Decidable (bounds_inv s) := by
  unfold bounds_inv
  infer_instance

/-- An all-zero engine state, used as a concrete starting point. -/
def state0 : mrg32k3a_state := ⟨⟨0, 0, 0⟩, ⟨0, 0, 0⟩, 0, 0, 0, 0⟩

/-- All three words of a state triplet are below `m`. -/
def vec_lt (v : Vec3) (m : ℕ) : Prop := v.s0 < m ∧ v.s1 < m ∧ v.s2 < m

instance (v : Vec3) (m : ℕ) : Decidable (vec_lt v m) := by
  unfold vec_lt
  infer_instance

/-- Iterating the jump loop's matrix-squaring step `k` times starting from
`A`: the flat array of the `2^k`-th power of `A` modulo `m` under the code's
own matrix product (`mod_mat_sq` is that product applied to equal factors).
`discard_subsequence_impl` applies exactly `mat_sq_iter k A1p67 M1` to `g1`
when bit `k` of its argument is set. -/
def mat_sq_iter : ℕ → Mat3 → ℕ → Mat3
  | 0, A, _ => A
  | k + 1, A, m => mat_sq_iter k (mod_mat_sq A m) m

/-- `mod_m1` never changes the residue class modulo `M1`
(because 2^32 is congruent to `M1C` modulo `M1`). -/
theorem mod_m1_mod (v : ℕ) : mod_m1 v % M1 = v % M1 := by
  unfold mod_m1 M1 M1C POW32
  split <;> omega

/-- `mod_m2` never changes the residue class modulo `M2`. -/
theorem mod_m2_mod (v : ℕ) : mod_m2 v % M2 = v % M2 := by
  unfold mod_m2 M2 M2C POW32
  split <;> omega

/-- When the argument is at most `20550080 * 2^32 + (2^32 - 1)` the single
fold stays below `2 * M1`, so one subtraction lands strictly below `M1`. -/
theorem mod_m1_lt (v : ℕ) (h : v < 20550081 * 4294967296) : mod_m1 v < M1 := by
  unfold mod_m1 M1 M1C POW32
  split <;> omega

/-- For every argument below 2^64 the double fold stays below `2 * M2`, so
`mod_m2` lands strictly below `M2` on the whole `unsigned long long` range. -/
theorem mod_m2_lt (v : ℕ) (h : v < U64) : mod_m2 v < M2 := by
  unfold mod_m2 M2 M2C POW32 U64 at *
  split <;> omega

/-- Crude upper bound on `mod_m1` for arguments below 2^64, used to bound the
intermediate `temp1`/`temp2` values of `mod_mul_m1`. -/
theorem mod_m1_le (v : ℕ) (h : v < U64) : mod_m1 v ≤ 901943131950 := by
  unfold mod_m1 M1 M1C POW32 U64 at *
  split <;> omega

/-- On arguments `i < 2^32`, `j < 2^47` none of the 64-bit products wrap and
the final fold stays below `2 * M1`, so `mod_mul_m1` is the exact modular
product. -/
theorem mod_mul_m1_exact (i j : ℕ) (hi : i < 4294967296)
    (hj : j < 140737488355328) : mod_mul_m1 i j = i * j % M1 := by
  have hhi : i / 131072 ≤ 32767 := by omega
  have hlo : i - i / 131072 * 131072 < 131072 := by omega
  have hp1 : i / 131072 * j ≤ 32767 * 140737488355327 :=
    Nat.mul_le_mul (by omega) (by omega)
  have hp2 : (i - i / 131072 * 131072) * j ≤ 131071 * 140737488355327 :=
    Nat.mul_le_mul (by omega) (by omega)
  have hw1 : i / 131072 * j % U64 = i / 131072 * j := by
    unfold U64; omega
  have hw2 : (i - i / 131072 * 131072) * j % U64 = (i - i / 131072 * 131072) * j := by
    unfold U64; omega
  -- bound the two reduced partial products
  have hb1 : mod_m1 (i / 131072 * j) ≤ 228707008302 := by
    unfold mod_m1 M1 M1C POW32
    split <;> omega
  have hb2 : mod_m1 ((i - i / 131072 * 131072) * j) ≤ 901943131950 := by
    apply mod_m1_le
    unfold U64; omega
  -- the recombination does not wrap
  have hw3 : mod_m1 (i / 131072 * j) * 131072 % U64
      = mod_m1 (i / 131072 * j) * 131072 := by
    unfold U64; omega
  have hw4 : (mod_m1 (i / 131072 * j) * 131072
      + mod_m1 ((i - i / 131072 * 131072) * j)) % U64
      = mod_m1 (i / 131072 * j) * 131072
        + mod_m1 ((i - i / 131072 * 131072) * j) := by
    unfold U64; omega
  -- congruences for the partial products
  have hc1 : mod_m1 (i / 131072 * j) * 131072 % M1
      = i / 131072 * j * 131072 % M1 :=
    Nat.ModEq.mul_right 131072 (mod_m1_mod _)
  have hc2 : mod_m1 ((i - i / 131072 * 131072) * j) % M1
      = (i - i / 131072 * 131072) * j % M1 :=
    mod_m1_mod _
  have hsum : (mod_m1 (i / 131072 * j) * 131072
      + mod_m1 ((i - i / 131072 * 131072) * j)) % M1
      = (i / 131072 * j * 131072 + (i - i / 131072 * 131072) * j) % M1 :=
    Nat.ModEq.add hc1 hc2
  have hij : i / 131072 * j * 131072 + (i - i / 131072 * 131072) * j = i * j := by
    have hsplit : i = i / 131072 * 131072 + (i - i / 131072 * 131072) := by omega
    calc i / 131072 * j * 131072 + (i - i / 131072 * 131072) * j
      = (i / 131072 * 131072 + (i - i / 131072 * 131072)) * j := by ring
    _ = i * j := by rw [← hsplit]
  have hfin : mod_m1 (mod_m1 (i / 131072 * j) * 131072
      + mod_m1 ((i - i / 131072 * 131072) * j)) < M1 := by
    apply mod_m1_lt
    omega
  have hfm := mod_m1_mod (mod_m1 (i / 131072 * j) * 131072
      + mod_m1 ((i - i / 131072 * 131072) * j))
  unfold mod_mul_m1
  rw [hw1, hw2, hw3, hw4]
  rw [hij] at hsum
  unfold M1 at *
  omega

set_option maxHeartbeats 1000000 in
/-- On arguments `i < 2^32`, `j < 2^47` none of the 64-bit products wrap, and
since `mod_m2` reduces every 64-bit value fully, `mod_mul_m2` is the exact
modular product. -/
theorem mod_mul_m2_exact (i j : ℕ) (hi : i < 4294967296)
    (hj : j < 140737488355328) : mod_mul_m2 i j = i * j % M2 := by
  have hp1 : i / 131072 * j ≤ 32767 * 140737488355327 :=
    Nat.mul_le_mul (by omega) (by omega)
  have hp2 : (i - i / 131072 * 131072) * j ≤ 131071 * 140737488355327 :=
    Nat.mul_le_mul (by omega) (by omega)
  have hw1 : i / 131072 * j % U64 = i / 131072 * j := by
    unfold U64; omega
  have hw2 : (i - i / 131072 * 131072) * j % U64 = (i - i / 131072 * 131072) * j := by
    unfold U64; omega
  have hb1 : mod_m2 (i / 131072 * j) < M2 := by
    apply mod_m2_lt
    unfold U64; omega
  have hb2 : mod_m2 ((i - i / 131072 * 131072) * j) < M2 := by
    apply mod_m2_lt
    unfold U64; omega
  have hb1n : mod_m2 (i / 131072 * j) < 4294944443 := hb1
  have hb2n : mod_m2 ((i - i / 131072 * 131072) * j) < 4294944443 := hb2
  have hw3 : mod_m2 (i / 131072 * j) * 131072 % U64
      = mod_m2 (i / 131072 * j) * 131072 := by
    unfold U64; omega
  have hw4 : (mod_m2 (i / 131072 * j) * 131072
      + mod_m2 ((i - i / 131072 * 131072) * j)) % U64
      = mod_m2 (i / 131072 * j) * 131072
        + mod_m2 ((i - i / 131072 * 131072) * j) := by
    unfold U64; omega
  have hc1 : mod_m2 (i / 131072 * j) * 131072 % M2
      = i / 131072 * j * 131072 % M2 :=
    Nat.ModEq.mul_right 131072 (mod_m2_mod _)
  have hc2 : mod_m2 ((i - i / 131072 * 131072) * j) % M2
      = (i - i / 131072 * 131072) * j % M2 :=
    mod_m2_mod _
  have hsum : (mod_m2 (i / 131072 * j) * 131072
      + mod_m2 ((i - i / 131072 * 131072) * j)) % M2
      = (i / 131072 * j * 131072 + (i - i / 131072 * 131072) * j) % M2 :=
    Nat.ModEq.add hc1 hc2
  have hij : i / 131072 * j * 131072 + (i - i / 131072 * 131072) * j = i * j := by
    have hsplit : i = i / 131072 * 131072 + (i - i / 131072 * 131072) := by omega
    calc i / 131072 * j * 131072 + (i - i / 131072 * 131072) * j
      = (i / 131072 * 131072 + (i - i / 131072 * 131072)) * j := by ring
    _ = i * j := by rw [← hsplit]
  have hfin : mod_m2 (mod_m2 (i / 131072 * j) * 131072
      + mod_m2 ((i - i / 131072 * 131072) * j)) < M2 := by
    apply mod_m2_lt
    unfold U64
    omega
  have hfm := mod_m2_mod (mod_m2 (i / 131072 * j) * 131072
      + mod_m2 ((i - i / 131072 * 131072) * j))
  unfold mod_mul_m2
  rw [hw1, hw2, hw3, hw4]
  rw [hij] at hsum
  unfold M2 at hsum hfin hfm ⊢
  omega

/-- Unfolding lemma: the jump loop stops at exponent zero. -/
theorem jump_state_zero (B1 B2 : Mat3) (g1 g2 : Vec3) :
    jump_state B1 B2 g1 g2 0 = (g1, g2) := by
  rw [jump_state]
  simp

/-- Every output word of `mod_mat_vec` is a remainder modulo `m`. -/
theorem mod_mat_vec_lt (A : Mat3) (s : Vec3) (m : ℕ) (hm : 0 < m) :
    vec_lt (mod_mat_vec A s m) m := by
  unfold mod_mat_vec mat_acc vec_lt
  exact ⟨Nat.mod_lt _ hm, Nat.mod_lt _ hm, Nat.mod_lt _ hm⟩

/-- The jump loop preserves the word bounds, for every matrix pair. -/
theorem jump_state_bounds (n : ℕ) (B1 B2 : Mat3) (g1 g2 : Vec3)
    (hg1 : vec_lt g1 M1) (hg2 : vec_lt g2 M2) :
    vec_lt (jump_state B1 B2 g1 g2 n).1 M1 ∧
    vec_lt (jump_state B1 B2 g1 g2 n).2 M2 := by
  induction n using Nat.strong_induction_on generalizing B1 B2 g1 g2 with
  | _ n ih =>
    rw [jump_state]
    split
    · exact ⟨hg1, hg2⟩
    · have hg1n : vec_lt (if n % 2 = 1 then mod_mat_vec B1 g1 M1 else g1) M1 := by
        split
        · exact mod_mat_vec_lt _ _ _ (by unfold M1; omega)
        · exact hg1
      have hg2n : vec_lt (if n % 2 = 1 then mod_mat_vec B2 g2 M2 else g2) M2 := by
        split
        · exact mod_mat_vec_lt _ _ _ (by unfold M2; omega)
        · exact hg2
      exact ih (n / 2) (by omega) _ _ _ _ hg1n hg2n

/-- Under the word bounds the first recurrence intermediate needs no 64-bit
wrap: it is the plain natural-number expression. -/
theorem next_arg1_eq (s : mrg32k3a_state)
    (h0 : s.g1.s0 < M1) (h1 : s.g1.s1 < M1) :
    add64 (mul64 A12 s.g1.s1) (mul64 A13N (sub64 M1 s.g1.s0))
      = A12 * s.g1.s1 + A13N * (M1 - s.g1.s0) := by
  unfold add64 mul64 sub64 A12 A13N M1 U64 at *
  omega

/-- Under the word bounds the second recurrence intermediate needs no 64-bit
wrap either. -/
theorem next_arg2_eq (s : mrg32k3a_state)
    (h0 : s.g2.s0 < M2) (h2 : s.g2.s2 < M2) :
    add64 (mul64 A21 s.g2.s2) (mul64 A23N (sub64 M2 s.g2.s0))
      = A21 * s.g2.s2 + A23N * (M2 - s.g2.s0) := by
  unfold add64 mul64 sub64 A21 A23N M2 U64 at *
  omega

/-- Under the word bounds the freshly produced `g1` word is reduced. -/
theorem next_p1_lt (s : mrg32k3a_state)
    (h0 : s.g1.s0 < M1) (h1 : s.g1.s1 < M1) :
    mod_m1 (add64 (mul64 A12 s.g1.s1) (mul64 A13N (sub64 M1 s.g1.s0))) < M1 := by
  rw [next_arg1_eq s h0 h1]
  apply mod_m1_lt
  unfold A12 A13N M1 at *
  omega

/-- The freshly produced `g2` word is always reduced (the double fold of
`mod_m2` covers the whole 64-bit range). -/
theorem next_p2_lt (s : mrg32k3a_state) :
    mod_m2 (add64 (mul64 A21 s.g2.s2) (mul64 A23N (sub64 M2 s.g2.s0))) < M2 := by
  apply mod_m2_lt
  unfold add64 U64
  omega

/-- `next` preserves the state-bounds invariant. -/
theorem next_bounds (s : mrg32k3a_state) (h : bounds_inv s) :
    bounds_inv (next s).2 := by
  obtain ⟨h1, h2, h3, h4, h5, h6⟩ := h
  exact ⟨h2, h3, next_p1_lt s h1 h2, h5, h6, next_p2_lt s⟩

/-- `discard` preserves the state-bounds invariant. -/
theorem discard_bounds (n : ℕ) (s : mrg32k3a_state) (h : bounds_inv s) :
    bounds_inv (discard n s) := by
  obtain ⟨h1, h2, h3, h4, h5, h6⟩ := h
  have hb := jump_state_bounds n A1 A2 s.g1 s.g2 ⟨h1, h2, h3⟩ ⟨h4, h5, h6⟩
  exact ⟨hb.1.1, hb.1.2.1, hb.1.2.2, hb.2.1, hb.2.2.1, hb.2.2.2⟩

/-- `discard_subsequence` preserves the state-bounds invariant. -/
theorem discard_subsequence_bounds (n : ℕ) (s : mrg32k3a_state)
    (h : bounds_inv s) : bounds_inv (discard_subsequence n s) := by
  obtain ⟨h1, h2, h3, h4, h5, h6⟩ := h
  have hb := jump_state_bounds n A1p67 A2p67 s.g1 s.g2 ⟨h1, h2, h3⟩ ⟨h4, h5, h6⟩
  exact ⟨hb.1.1, hb.1.2.1, hb.1.2.2, hb.2.1, hb.2.2.1, hb.2.2.2⟩

/-- `discard_sequence` preserves the state-bounds invariant. -/
theorem discard_sequence_bounds (n : ℕ) (s : mrg32k3a_state)
    (h : bounds_inv s) : bounds_inv (discard_sequence n s) := by
  obtain ⟨h1, h2, h3, h4, h5, h6⟩ := h
  have hb := jump_state_bounds n A1p127 A2p127 s.g1 s.g2 ⟨h1, h2, h3⟩ ⟨h4, h5, h6⟩
  exact ⟨hb.1.1, hb.1.2.1, hb.1.2.2, hb.2.1, hb.2.2.1, hb.2.2.2⟩

/-- `restart` preserves the state-bounds invariant (flag clearing does not
touch the recurrence words). -/
theorem restart_bounds (sub off : ℕ) (s : mrg32k3a_state) (h : bounds_inv s) :
    bounds_inv (restart sub off s) := by
  obtain ⟨h1, h2, h3, h4, h5, h6⟩ := h
  exact discard_bounds off _ (discard_subsequence_bounds sub _
    ⟨h1, h2, h3, h4, h5, h6⟩)

/-- For seed values below `2^47` the six freshly seeded words are exact
modular products, hence within bounds. -/
theorem seed_bounds (v sub off : ℕ) (s : mrg32k3a_state)
    (hv : v < 140737488355328) : bounds_inv (seed v sub off s) := by
  unfold seed
  apply restart_bounds
  have hvn : (if v = 0 then DEFAULT_SEED else v) < 140737488355328 := by
    unfold DEFAULT_SEED
    split <;> omega
  have hx : ((if v = 0 then DEFAULT_SEED else v) % POW32) ^^^ 0x55555555
      < 4294967296 := by
    have h1 : (if v = 0 then DEFAULT_SEED else v) % POW32 < 2 ^ 32 := by
      unfold POW32
      omega
    have h2 : (0x55555555 : ℕ) < 2 ^ 32 := by norm_num
    exact Nat.xor_lt_two_pow h1 h2
  have hy : (((if v = 0 then DEFAULT_SEED else v) / POW32) ^^^ 0xAAAAAAAA) % POW32
      < 4294967296 := by
    unfold POW32
    omega
  refine ⟨?_, ?_, ?_, ?_, ?_, ?_⟩ <;>
    simp only [mod_mul_m1_exact _ _ hx hvn, mod_mul_m1_exact _ _ hy hvn,
      mod_mul_m2_exact _ _ hx hvn, mod_mul_m2_exact _ _ hy hvn] <;>
    exact Nat.mod_lt _ (by first | (unfold M1; omega) | (unfold M2; omega))

/-- C2: for every state satisfying the bounds invariant, `next()` returns a
value strictly greater than 0 and at most `M1`. -/
theorem c2_next_output_range (s : mrg32k3a_state) (h : bounds_inv s) :
    0 < (next s).1 ∧ (next s).1 ≤ M1 := by
  obtain ⟨h1, h2, h3, h4, h5, h6⟩ := h
  have hp1 := next_p1_lt s h1 h2
  have hp2 := next_p2_lt s
  simp only [next]
  simp only [add64, sub64, mul64, U64, M1, M2] at hp1 hp2 ⊢
  constructor <;> (split <;> omega)

/-- Closed witness for C2 at the all-zero state. -/
theorem c2_next_output_range_witness :
    bounds_inv state0 ∧ (0 < (next state0).1 ∧ (next state0).1 ≤ M1) :=
  ⟨by decide, c2_next_output_range state0 (by decide)⟩

/-- C3 (amended): `next`, `discard`, `discard_subsequence`, `discard_sequence`
and `restart` preserve the state-bounds invariant for every state, and `seed`
establishes it for every seed value below `2^47` (in particular for the
default seed substituted for zero); for larger 64-bit seed values the seeded
state can escape the bounds, see the counterexample. -/
theorem c3_bounds_invariant_preserved (s : mrg32k3a_state) (n sub off v : ℕ)
    (h : bounds_inv s) (hv : v < 140737488355328) :
    bounds_inv (next s).2 ∧ bounds_inv (discard n s) ∧
    bounds_inv (discard_subsequence n s) ∧ bounds_inv (discard_sequence n s) ∧
    bounds_inv (restart sub off s) ∧ bounds_inv (seed v sub off s) :=
  ⟨next_bounds s h, discard_bounds n s h, discard_subsequence_bounds n s h,
   discard_sequence_bounds n s h, restart_bounds sub off s h,
   seed_bounds v sub off s hv⟩

/-- Closed witness for C3 at the all-zero state. -/
theorem c3_bounds_invariant_preserved_witness :
    bounds_inv state0 ∧ (5 : ℕ) < 140737488355328 ∧
    (bounds_inv (next state0).2 ∧ bounds_inv (discard 1 state0) ∧
     bounds_inv (discard_subsequence 1 state0) ∧
     bounds_inv (discard_sequence 1 state0) ∧
     bounds_inv (restart 2 3 state0) ∧ bounds_inv (seed 5 2 3 state0)) :=
  ⟨by decide, by decide,
   c3_bounds_invariant_preserved state0 1 2 3 5 (by decide) (by decide)⟩

/-- C3 counterexample: the claim "every state reachable from any seed call
satisfies the bounds" is false: this 64-bit seed makes `mod_mul_m1` wrap in
its 64-bit partial product, and the seeded `g1[1]` word lands at
4986922030, which is not below `M1 = 4294967087`. -/
theorem c3_counterexample_seed_escapes_bounds :
    (seed 16781078052021535861 0 0 state0).g1.s1 = 4986922030 ∧
    ¬ bounds_inv (seed 16781078052021535861 0 0 state0) := by
  have hs : seed 16781078052021535861 0 0 state0 =
      ⟨⟨2374120217, 4986922030, 2374120217⟩,
       ⟨3607778442, 2286439623, 3607778442⟩, 0, 0, 0, 0⟩ := by
    simp only [seed, restart, discard_impl, discard_state,
      discard_subsequence_impl, jump_state_zero, state0]
    decide
  rw [hs]
  decide

/-- C4: `restart` zeroes both Box-Muller present flags whatever their prior
values, and equals `discard_subsequence` followed by `discard` applied to the
flag-cleared state, in that order; `seed` ends in `restart`, so seeding also
clears both flags. -/
theorem c4_restart_clears_flags_and_orders_jumps (s : mrg32k3a_state)
    (sub off v : ℕ) :
    (restart sub off s).boxmuller_float_state = 0 ∧
    (restart sub off s).boxmuller_double_state = 0 ∧
    restart sub off s =
      discard off (discard_subsequence sub
        { s with boxmuller_float_state := 0, boxmuller_double_state := 0 }) ∧
    (seed v sub off s).boxmuller_float_state = 0 ∧
    (seed v sub off s).boxmuller_double_state = 0 :=
  ⟨rfl, rfl, rfl, rfl, rfl⟩

/-- C5: a zero seed value is silently replaced by the default constant
`0x12345`: both calls produce identical states. -/
theorem c5_zero_seed_normalization (sub off : ℕ) (s : mrg32k3a_state) :
    seed 0 sub off s = seed 0x12345 sub off s := rfl

/-- C6: all three jump operations with count zero leave the state completely
unchanged, Box-Muller cache included. -/
theorem c6_zero_jump_is_identity (s : mrg32k3a_state) :
    discard 0 s = s ∧ discard_subsequence 0 s = s ∧ discard_sequence 0 s = s := by
  refine ⟨?_, ?_, ?_⟩ <;>
    simp [discard, discard_impl, discard_state, discard_subsequence,
      discard_subsequence_impl, discard_sequence, discard_sequence_impl,
      jump_state_zero]

/-- C7: on the intermediates produced by `next()` (both recurrence
components, arguments below their modulus), `mod_m1` computes the true
remainder modulo `M1` and `mod_m2` the true remainder modulo `M2`. -/
theorem c7_reduction_exact_on_next_intermediates (a b c d : ℕ)
    (ha : a < M1) (hb : b < M1) (hc : c < M2) (hd : d < M2) :
    mod_m1 (A12 * a + A13N * (M1 - b)) = (A12 * a + A13N * (M1 - b)) % M1 ∧
    mod_m1 (A21 * c + A23N * (M2 - d)) = (A21 * c + A23N * (M2 - d)) % M1 ∧
    mod_m2 (A12 * a + A13N * (M1 - b)) = (A12 * a + A13N * (M1 - b)) % M2 ∧
    mod_m2 (A21 * c + A23N * (M2 - d)) = (A21 * c + A23N * (M2 - d)) % M2 := by
  refine ⟨?_, ?_, ?_, ?_⟩
  · have hm := mod_m1_mod (A12 * a + A13N * (M1 - b))
    have hl : mod_m1 (A12 * a + A13N * (M1 - b)) < M1 := by
      apply mod_m1_lt
      unfold A12 A13N M1 at *
      omega
    unfold M1 at *
    omega
  · have hm := mod_m1_mod (A21 * c + A23N * (M2 - d))
    have hl : mod_m1 (A21 * c + A23N * (M2 - d)) < M1 := by
      apply mod_m1_lt
      unfold A21 A23N M1 M2 at *
      omega
    unfold M1 at *
    omega
  · have hm := mod_m2_mod (A12 * a + A13N * (M1 - b))
    have hl : mod_m2 (A12 * a + A13N * (M1 - b)) < M2 := by
      apply mod_m2_lt
      unfold A12 A13N M1 M2 U64 at *
      omega
    unfold M2 at *
    omega
  · have hm := mod_m2_mod (A21 * c + A23N * (M2 - d))
    have hl : mod_m2 (A21 * c + A23N * (M2 - d)) < M2 := by
      apply mod_m2_lt
      unfold A21 A23N M2 U64 at *
      omega
    unfold M2 at *
    omega

/-- Closed witness for C7 at small in-range arguments. -/
theorem c7_reduction_exact_witness :
    (1 : ℕ) < M1 ∧ (2 : ℕ) < M1 ∧ (3 : ℕ) < M2 ∧ (4 : ℕ) < M2 ∧
    (mod_m1 (A12 * 1 + A13N * (M1 - 2)) = (A12 * 1 + A13N * (M1 - 2)) % M1 ∧
     mod_m1 (A21 * 3 + A23N * (M2 - 4)) = (A21 * 3 + A23N * (M2 - 4)) % M1 ∧
     mod_m2 (A12 * 1 + A13N * (M1 - 2)) = (A12 * 1 + A13N * (M1 - 2)) % M2 ∧
     mod_m2 (A21 * 3 + A23N * (M2 - 4)) = (A21 * 3 + A23N * (M2 - 4)) % M2) :=
  ⟨by decide, by decide, by decide, by decide,
   c7_reduction_exact_on_next_intermediates 1 2 3 4
     (by decide) (by decide) (by decide) (by decide)⟩

/-- C9: for every non-zero seed value, the six state words written before the
trailing `restart` are `mod_mul_m1` / `mod_mul_m2` products of the raw seed
with the two mask-derived 32-bit values `x = low32(seed) XOR 0x55555555` and
`y = high32(seed) XOR 0xAAAAAAAA`; observed here through a `restart(0, 0)`
that leaves the words untouched. -/
theorem c9_seed_word_derivation (v : ℕ) (s : mrg32k3a_state) (hv : v ≠ 0) :
    (seed v 0 0 s).g1 =
      ⟨mod_mul_m1 ((v % POW32) ^^^ 0x55555555) v,
       mod_mul_m1 (((v / POW32) ^^^ 0xAAAAAAAA) % POW32) v,
       mod_mul_m1 ((v % POW32) ^^^ 0x55555555) v⟩ ∧
    (seed v 0 0 s).g2 =
      ⟨mod_mul_m2 (((v / POW32) ^^^ 0xAAAAAAAA) % POW32) v,
       mod_mul_m2 ((v % POW32) ^^^ 0x55555555) v,
       mod_mul_m2 (((v / POW32) ^^^ 0xAAAAAAAA) % POW32) v⟩ := by
  constructor <;>
    simp [seed, hv, restart, discard_impl, discard_state,
      discard_subsequence_impl, jump_state_zero]

/-- Closed witness for C9 at seed value 12345. -/
theorem c9_seed_word_derivation_witness :
    (12345 : ℕ) ≠ 0 ∧
    ((seed 12345 0 0 state0).g1 =
      ⟨mod_mul_m1 ((12345 % POW32) ^^^ 0x55555555) 12345,
       mod_mul_m1 (((12345 / POW32) ^^^ 0xAAAAAAAA) % POW32) 12345,
       mod_mul_m1 ((12345 % POW32) ^^^ 0x55555555) 12345⟩ ∧
     (seed 12345 0 0 state0).g2 =
      ⟨mod_mul_m2 (((12345 / POW32) ^^^ 0xAAAAAAAA) % POW32) 12345,
       mod_mul_m2 ((12345 % POW32) ^^^ 0x55555555) 12345,
       mod_mul_m2 (((12345 / POW32) ^^^ 0xAAAAAAAA) % POW32) 12345⟩) :=
  ⟨by decide, c9_seed_word_derivation 12345 state0 (by decide)⟩

/-- C10 counterexample: `mod_mul_m1` and `mod_mul_m2` are not the exact
modular product over the full 32-bit times 64-bit input range: the partial
product `hi * j` wraps modulo 2^64 for these inputs, losing the high bits. -/
theorem c10_counterexample_mod_mul_wraps :
    mod_mul_m1 577090037 15632393290034665546 = 1204272827 ∧
    577090037 * 15632393290034665546 % M1 = 2023208919 ∧
    mod_mul_m2 3445702192 1164115433906158532 = 632722543 ∧
    3445702192 * 1164115433906158532 % M2 = 4082394311 := by
  refine ⟨by decide, by decide, by decide, by decide⟩

/-- C10 (amended): the multiply-reduce helpers compute the exact modular
product for every 32-bit `i` whenever `j < 2^47`, the range in which neither
`hi * j` nor `lo * j` can wrap modulo 2^64. -/
theorem c10_mod_mul_exact_below_2pow47 (i j : ℕ) (hi : i < 4294967296)
    (hj : j < 140737488355328) :
    mod_mul_m1 i j = i * j % M1 ∧ mod_mul_m2 i j = i * j % M2 :=
  ⟨mod_mul_m1_exact i j hi hj, mod_mul_m2_exact i j hi hj⟩

/-- Closed witness for C10 (amended) at small arguments. -/
theorem c10_mod_mul_exact_below_2pow47_witness :
    (123456789 : ℕ) < 4294967296 ∧ (987654321 : ℕ) < 140737488355328 ∧
    (mod_mul_m1 123456789 987654321 = 123456789 * 987654321 % M1 ∧
     mod_mul_m2 123456789 987654321 = 123456789 * 987654321 % M2) :=
  ⟨by decide, by decide,
   c10_mod_mul_exact_below_2pow47 123456789 987654321 (by decide) (by decide)⟩

/-- C1: jump-ahead is claimed to match naive iteration, but it does not:
from the state reached by `seed(12345, 0, 0)`, `discard(1)` produces a state
different from one `next()` step, and the values then generated differ
(1963785228 versus 631176402).  `mod_mat_vec` contracts the stored matrix
over the flat index `i + 3 * j`, which multiplies the state by the transpose
of the stored one-step matrix instead of the matrix itself. -/
theorem c1_discard_mismatches_iterated_next :
    seed 12345 0 0 state0 =
      ⟨⟨51704975, 1711840, 51704975⟩, ⟨188071960, 144885035, 188071960⟩,
       0, 0, 0, 0⟩ ∧
    discard 1 ⟨⟨51704975, 1711840, 51704975⟩,
               ⟨188071960, 144885035, 188071960⟩, 0, 0, 0, 0⟩ ≠
      (next ⟨⟨51704975, 1711840, 51704975⟩,
             ⟨188071960, 144885035, 188071960⟩, 0, 0, 0, 0⟩).2 ∧
    (next (discard 1 ⟨⟨51704975, 1711840, 51704975⟩,
                      ⟨188071960, 144885035, 188071960⟩, 0, 0, 0, 0⟩)).1
      = 1963785228 ∧
    (next ((next ⟨⟨51704975, 1711840, 51704975⟩,
                  ⟨188071960, 144885035, 188071960⟩, 0, 0, 0, 0⟩).2)).1
      = 631176402 := by
  have hseed : seed 12345 0 0 state0 =
      ⟨⟨51704975, 1711840, 51704975⟩, ⟨188071960, 144885035, 188071960⟩,
       0, 0, 0, 0⟩ := by
    simp only [seed, restart, discard_impl, discard_state,
      discard_subsequence_impl, jump_state_zero, state0]
    decide
  have hd : discard 1 ⟨⟨51704975, 1711840, 51704975⟩,
      ⟨188071960, 144885035, 188071960⟩, 0, 0, 0, 0⟩ =
      ⟨⟨207797320, 61646436, 1711840⟩, ⟨321051091, 188071960, 3066377926⟩,
       0, 0, 0, 0⟩ := by
    simp only [discard, discard_impl, discard_state]
    rw [jump_state]
    norm_num [jump_state_zero]
    decide
  refine ⟨hseed, ?_, ?_, ?_⟩
  · rw [hd]
    decide
  · rw [hd]
    decide
  · decide

set_option maxRecDepth 40000 in
/-- C8: `discard_subsequence(1)` applies the stored `A1p67` / `A2p67` arrays
once, but those arrays are the base transition matrices raised to the power
`2^76` under the code's own matrix product (`mat_sq_iter 76`), not to the
power `2^67` as claimed: iterated squaring 67 times does not reproduce them,
iterated squaring 76 times does. -/
theorem c8_subsequence_matrices_are_2pow76 :
    (∀ s : mrg32k3a_state,
      (discard_subsequence 1 s).g1 = mod_mat_vec A1p67 s.g1 M1 ∧
      (discard_subsequence 1 s).g2 = mod_mat_vec A2p67 s.g2 M2) ∧
    mat_sq_iter 67 A1 M1 ≠ A1p67 ∧ mat_sq_iter 67 A2 M2 ≠ A2p67 ∧
    mat_sq_iter 76 A1 M1 = A1p67 ∧ mat_sq_iter 76 A2 M2 = A2p67 := by
  refine ⟨fun s => ?_, by decide, by decide, by decide, by decide⟩
  constructor <;>
    (simp only [discard_subsequence, discard_subsequence_impl]
     rw [jump_state]
     norm_num [jump_state_zero])

end mrg32k3a
